import Mathlib

/-! IslandMQ request/reply core — verification development.

Shallow embedding of the request/reply sample programs
(`sample/server.py`, `sample/client.py`):

* the notice argument grammar parser `parse_args`,
* the command dispatcher `handle_request`,
* the JSON envelope codec (modelling Python's `json.dumps(·, ensure_ascii=False)`
  / `json.loads` on the envelope shapes actually exchanged),
* one iteration of the server's receive/dispatch/send loop, and
* the client's `send_request`.

Python strings are modelled as Lean `String`s, with the string operations the
source uses (`startswith`, `split('=', 1)`, `lower`) defined through the
underlying character lists, matching Python's code-point semantics.
-/

namespace IslandMQ

/-- Result of Python's `float(str)`: a finite value (modelled exactly as a
rational — no claim depends on IEEE rounding), an infinity, or a NaN. -/
inductive PyFloat where
  | finite (q : ℚ)
  | inf (neg : Bool)
  | nan
deriving DecidableEq, Repr

/-- Python whitespace stripped by `float(str)` (`str.strip` default set,
restricted to the ASCII ones: space, `\t`, `\n`, `\r`, `\x0b`, `\x0c`). -/
def isPySpace (c : Char) : Bool :=
  c = ' ' || c = '\t' || c = '\n' || c = '\r' || c = '\x0b' || c = '\x0c'

def isDigitChar (c : Char) : Bool :=
  c.isDigit

def digitVal (c : Char) : Nat := c.toNat - 48

/-- A run of decimal digits possibly with single underscores *between* digits,
as Python's numeric literals allow: `digit (('_')? digit)*`.
Returns the digits (underscores removed) and the remaining input;
`none` when the input does not begin with a digit or an underscore is
misplaced. -/
def takeDigitRunF : Nat → List Char → Option (List Char × List Char)
  | 0, _ => none
  | _ + 1, [] => none
  | f + 1, cs =>
    match cs with
    | c :: '_' :: c' :: cs' =>
      if isDigitChar c then
        if isDigitChar c' then
          match takeDigitRunF f (c' :: cs') with
          | some (ds, rest) => some (c :: ds, rest)
          | none => none
        else some ([c], '_' :: c' :: cs')
      else none
    | c :: c' :: cs' =>
      if isDigitChar c then
        if isDigitChar c' then
          match takeDigitRunF f (c' :: cs') with
          | some (ds, rest) => some (c :: ds, rest)
          | none => none
        else some ([c], c' :: cs')
      else none
    | [c] => if isDigitChar c then some ([c], []) else none
    | [] => none

/-- The run consumes at least one character per step, so the input length is
enough fuel. -/
def takeDigitRun (cs : List Char) : Option (List Char × List Char) :=
  takeDigitRunF cs.length cs

def digitsToNat (ds : List Char) : Nat :=
  ds.foldl (fun a c => a * 10 + digitVal c) 0

/-- Case-insensitive match of a keyword, returning the rest of the input. -/
def dropKeyword : List Char → List Char → Option (List Char)
  | [], cs => some cs
  | k :: ks, c :: cs => if c.toLower = k then dropKeyword ks cs else none
  | _ :: _, [] => none

/-- Mantissa of a Python float literal: `D`, `D.`, `D.D` or `.D`.
Returns (integer value, number of fractional digits) as the exact rational
`int + frac/10^n`, plus the remaining input. -/
def parseMantissa (cs : List Char) : Option (ℚ × List Char) :=
  match takeDigitRun cs with
  | some (ds, rest) =>
    match rest with
    | '.' :: rest' =>
      match takeDigitRun rest' with
      | some (fs, rest'') =>
        some ((digitsToNat ds : ℚ) + (digitsToNat fs : ℚ) / (10 : ℚ) ^ fs.length, rest'')
      | none => some ((digitsToNat ds : ℚ), rest')
    | _ => some ((digitsToNat ds : ℚ), rest)
  | none =>
    match cs with
    | '.' :: rest' =>
      match takeDigitRun rest' with
      | some (fs, rest'') =>
        some ((digitsToNat fs : ℚ) / (10 : ℚ) ^ fs.length, rest'')
      | none => none
    | _ => none

/-- Optional exponent part `((e|E) (+|-)? D)?` scaling the mantissa. -/
def parseExponent (q : ℚ) (cs : List Char) : Option (ℚ × List Char) :=
  match cs with
  | e :: rest =>
    if e.toLower = 'e' then
      let (neg, rest') :=
        match rest with
        | '+' :: r => (false, r)
        | '-' :: r => (true, r)
        | r => (false, r)
      match takeDigitRun rest' with
      | some (ds, rest'') =>
        let p : ℚ := (10 : ℚ) ^ digitsToNat ds
        some (if neg then q / p else q * p, rest'')
      | none => none
    else some (q, cs)
  | [] => some (q, cs)

/-- The body of `float(str)` after stripping whitespace and the sign:
`inf`, `infinity`, `nan` (case-insensitive) or a numeric literal. -/
def parsePyFloatBody (neg : Bool) (cs : List Char) : Option PyFloat :=
  match dropKeyword ['i', 'n', 'f', 'i', 'n', 'i', 't', 'y'] cs with
  | some [] => some (.inf neg)
  | _ =>
    match dropKeyword ['i', 'n', 'f'] cs with
    | some [] => some (.inf neg)
    | _ =>
      match dropKeyword ['n', 'a', 'n'] cs with
      | some [] => some .nan
      | _ =>
        match parseMantissa cs with
        | some (q, rest) =>
          match parseExponent q rest with
          | some (q', []) => some (.finite (if neg then -q' else q'))
          | _ => none
        | none => none

/-- Model of Python's `float(str)` conversion: `some v` when the string is a
valid float literal, `none` when `float` would raise `ValueError`.  Restricted
to ASCII digits and whitespace (CPython additionally accepts Unicode digit and
space forms; no claim depends on those). -/
def parsePyFloatChars (cs : List Char) : Option PyFloat :=
  let cs := (cs.dropWhile isPySpace).reverse.dropWhile isPySpace |>.reverse
  match cs with
  | '+' :: rest => parsePyFloatBody false rest
  | '-' :: rest => parsePyFloatBody true rest
  | rest => parsePyFloatBody false rest

def parsePyFloat (s : String) : Option PyFloat :=
  parsePyFloatChars s.data

/-- The notice parameters produced by `parse_args` (server.py:44-77). -/
structure NoticeParams where
  title : String
  context : String
  allow_break : Bool
  mask_duration : PyFloat
  overlay_duration : PyFloat
deriving DecidableEq, Repr

/-- The defaults set at the top of `parse_args` (server.py:45-49). -/
def defaultParams : NoticeParams :=
  { title := ""
    context := ""
    allow_break := true
    mask_duration := .finite 3
    overlay_duration := .finite 5 }

/-- Python's `str.lower()` restricted to the ASCII mapping the comparisons
in the source need. -/
def pyLower (s : String) : String := ⟨s.data.map Char.toLower⟩

/-- One iteration of the `for arg in args` loop of `parse_args`
(server.py:51-75), operating on the token's character list.  Each
`--flag=`-guarded branch splits on the first `=` (which is the one ending the
matched prefix, so `parts[1]` is the suffix after it and `len(parts) == 2`
always holds inside the branch). -/
def argStep (s : NoticeParams) (arg : List Char) : NoticeParams :=
  if "--context=".data.isPrefixOf arg then
    { s with context := ⟨arg.drop 10⟩ }
  else if "--allow-break=".data.isPrefixOf arg then
    { s with allow_break := pyLower ⟨arg.drop 14⟩ = "true" }
  else if "--mask-duration=".data.isPrefixOf arg then
    match parsePyFloatChars (arg.drop 16) with
    | some v => { s with mask_duration := v }
    | none => s
  else if "--overlay-duration=".data.isPrefixOf arg then
    match parsePyFloatChars (arg.drop 19) with
    | some v => { s with overlay_duration := v }
    | none => s
  else if ¬ "--".data.isPrefixOf arg ∧ s.title = "" then
    { s with title := ⟨arg⟩ }
  else s

/-- `parse_args` (server.py:44-77): fold the token list over `argStep`
starting from the defaults.  Total by construction — the Python function
catches the only exception (`ValueError` from `float`) internally. -/
def parse_args (args : List String) : NoticeParams :=
  args.foldl (fun s a => argStep s a.data) defaultParams

/-- A request as `handle_request` sees it after `json.loads`: a JSON object
restricted to the envelope fields of the protocol (`version`, `command`,
`args`), each possibly absent.  `handle_request` never reads `version`. -/
structure RequestEnv where
  version : Option Nat
  command : Option String
  args : Option (List String)
deriving DecidableEq, Repr

/-- A response envelope `{status_code, message}`. -/
structure ResponseEnv where
  status_code : Nat
  message : String
deriving DecidableEq, Repr

/-- `handle_request` (server.py:79-114): the command dispatcher.  Note the
source never inspects `request["version"]`. -/
def handle_request (request : RequestEnv) : ResponseEnv :=
  match request.command with
  | none => ⟨400, "Missing or invalid 'command' parameter"⟩
  | some command =>
    if command = "ping" then ⟨200, "OK"⟩
    else if command = "notice" then
      let p := parse_args (request.args.getD [])
      if p.title = "" then ⟨400, "Missing required parameter 'title'"⟩
      else ⟨if p.allow_break then 200 else 202, "Notice sent successfully"⟩
    else ⟨404, "Command not found"⟩

/-! ## Envelope codec

The two sides serialize with `json.dumps(value, ensure_ascii=False)` and parse
with `json.loads` (CPython's `json` module — not part of this repository).
`encodeResponse`/`encodeRequest` reproduce `json.dumps` exactly on the envelope
dictionaries the programs build (default separators `", "`/`": "`, insertion
key order, non-ASCII characters kept literal, only `"`, `\` and control
characters escaped).  `decodeResponse`/`decodeRequest` model `json.loads`
restricted to that envelope grammar: on every string `encode` produces the
model agrees with `json.loads`. -/

def hexDigit (n : Nat) : Char :=
  Char.ofNat (if n < 10 then 48 + n else 87 + n)

/-- One character as CPython's json encoder emits it with `ensure_ascii=False`:
`"`, `\` and the short control escapes, `\u00XX` for other control characters,
every other character (non-ASCII included) literal. -/
def escChar (c : Char) : List Char :=
  if c = '"' then ['\\', '"']
  else if c = '\\' then ['\\', '\\']
  else if c = '\n' then ['\\', 'n']
  else if c = '\r' then ['\\', 'r']
  else if c = '\t' then ['\\', 't']
  else if c = '\x08' then ['\\', 'b']
  else if c = '\x0c' then ['\\', 'f']
  else if c.toNat < 0x20 then
    ['\\', 'u', '0', '0', hexDigit (c.toNat / 16), hexDigit (c.toNat % 16)]
  else [c]

def escapeChars : List Char → List Char
  | [] => []
  | c :: cs => escChar c ++ escapeChars cs

/-- A JSON string literal: quote, escaped body, quote. -/
def encodeJStr (s : String) : List Char :=
  '"' :: (escapeChars s.data ++ ['"'])

/-- Decimal digits of `n`, most significant first (`fuel ≥ n + 1` suffices). -/
def natDigitsAux : Nat → Nat → List Char
  | 0, _ => []
  | f + 1, n =>
    if n < 10 then [Char.ofNat ('0'.toNat + n)]
    else natDigitsAux f (n / 10) ++ [Char.ofNat ('0'.toNat + n % 10)]

def natDigits (n : Nat) : List Char := natDigitsAux (n + 1) n

/-- `json.dumps({"status_code": …, "message": …}, ensure_ascii=False)` as the
server builds the response dict (server.py:137). -/
def encodeResponse (r : ResponseEnv) : String :=
  ⟨"\x7b\"status_code\": ".data ++ natDigits r.status_code ++
    ", \"message\": ".data ++ encodeJStr r.message ++ ['\x7d']⟩

/-- The request envelope as the client sends it (client.py:91-260): `version`
and `command` always present, `args` optional, keys in insertion order. -/
structure WireRequest where
  version : Nat
  command : String
  args : Option (List String)
deriving DecidableEq, Repr

/-- A decoded wire request as `handle_request` receives it. -/
def WireRequest.toEnv (w : WireRequest) : RequestEnv :=
  ⟨some w.version, some w.command, w.args⟩

/-- Items of a JSON array of strings, separated by `", "` (the body between
the brackets; empty list gives an empty body). -/
def encodeItems : List String → List Char
  | [] => []
  | [s] => encodeJStr s
  | s :: ss => encodeJStr s ++ ", ".data ++ encodeItems ss

/-- `json.dumps(payload, ensure_ascii=False)` on the request dict
(client.py:55). -/
def encodeRequest (w : WireRequest) : String :=
  ⟨"\x7b\"version\": ".data ++ natDigits w.version ++
    ", \"command\": ".data ++ encodeJStr w.command ++
    (match w.args with
     | none => []
     | some l => ", \"args\": [".data ++ encodeItems l ++ [']']) ++ ['\x7d']⟩

/-- Consume an expected literal, returning the remaining input. -/
def dropLit : List Char → List Char → Option (List Char)
  | [], cs => some cs
  | l :: ls, c :: cs => if c = l then dropLit ls cs else none
  | _ :: _, [] => none

/-- Longest digit run at the front of the input. -/
def takeDigits : List Char → List Char × List Char
  | [] => ([], [])
  | c :: cs =>
    if isDigitChar c then
      let (ds, r) := takeDigits cs
      (c :: ds, r)
    else ([], c :: cs)

/-- A JSON unsigned integer (the envelope's status codes and versions). -/
def parseNat (cs : List Char) : Option (Nat × List Char) :=
  match takeDigits cs with
  | ([], _) => none
  | (ds, r) => some (digitsToNat ds, r)

def hexVal (c : Char) : Option Nat :=
  if isDigitChar c then some (digitVal c)
  else
    let l := c.toLower.toNat
    if 97 ≤ l ∧ l ≤ 102 then some (l - 87) else none

/-- The character a single-letter escape `\e` decodes to (`\/` is legal JSON
input although the encoder never emits it). -/
def escDecode (e : Char) : Option Char :=
  if e = '"' then some '"' else if e = '\\' then some '\\'
  else if e = '/' then some '/' else if e = 'b' then some '\x08'
  else if e = 'f' then some '\x0c' else if e = 'n' then some '\n'
  else if e = 'r' then some '\r' else if e = 't' then some '\t'
  else none

/-- Body of a JSON string after its opening quote, as `json.loads` (strict
mode) reads it: escapes decoded, unescaped control characters refused,
everything else literal.  Returns the decoded characters and the input after
the closing quote. -/
def parseJStrBody : List Char → Option (List Char × List Char)
  | [] => none
  | c :: rest =>
    if c = '"' then some ([], rest)
    else if c = '\\' then
      match rest with
      | 'u' :: h1 :: h2 :: h3 :: h4 :: rest' =>
        (match hexVal h1, hexVal h2, hexVal h3, hexVal h4 with
         | some a, some b, some c, some d =>
           match parseJStrBody rest' with
           | some (s, r) => some (Char.ofNat (((a * 16 + b) * 16 + c) * 16 + d) :: s, r)
           | none => none
         | _, _, _, _ => none)
      | e :: rest' =>
        (match escDecode e with
         | some d =>
           match parseJStrBody rest' with
           | some (s, r) => some (d :: s, r)
           | none => none
         | none => none)
      | [] => none
    else if c.toNat < 0x20 then none
    else
      match parseJStrBody rest with
      | some (s, r) => some (c :: s, r)
      | none => none
termination_by structural cs => cs

/-- A whole JSON string literal: opening quote, body, closing quote. -/
def parseJStr : List Char → Option (List Char × List Char)
  | '"' :: rest => parseJStrBody rest
  | _ => none

/-- Items of a string array, the input starting at the opening quote of the
next item; `fuel` bounds the number of further items. -/
def parseItems : Nat → List Char → Option (List String × List Char)
  | fuel, '"' :: cs =>
    (match parseJStrBody cs with
     | some (s, rest) =>
       match rest with
       | ']' :: rest' => some ([⟨s⟩], rest')
       | ',' :: ' ' :: rest' =>
         (match fuel with
          | 0 => none
          | fuel' + 1 =>
            match parseItems fuel' rest' with
            | some (ss, r) => some (⟨s⟩ :: ss, r)
            | none => none)
       | _ => none
     | none => none)
  | _, _ => none

/-- A JSON array of strings. -/
def parseStrArr : List Char → Option (List String × List Char)
  | '[' :: ']' :: rest => some ([], rest)
  | '[' :: cs => parseItems cs.length cs
  | _ => none

/-- `json.loads` on a response payload, restricted to the envelope grammar
`encodeResponse` emits. -/
def decodeResponse (s : String) : Option ResponseEnv :=
  (dropLit "\x7b\"status_code\": ".data s.data).bind fun cs =>
  (parseNat cs).bind fun (n, cs1) =>
  (dropLit ", \"message\": ".data cs1).bind fun cs2 =>
  (parseJStr cs2).bind fun (m, cs3) =>
  if cs3 = ['\x7d'] then some ⟨n, ⟨m⟩⟩ else none

/-- `json.loads` on a request payload, restricted to the envelope grammar
`encodeRequest` emits. -/
def decodeRequest (s : String) : Option WireRequest :=
  (dropLit "\x7b\"version\": ".data s.data).bind fun cs =>
  (parseNat cs).bind fun (v, cs1) =>
  (dropLit ", \"command\": ".data cs1).bind fun cs2 =>
  (parseJStr cs2).bind fun (c, cs3) =>
  if cs3 = ['\x7d'] then some ⟨v, ⟨c⟩, none⟩
  else
    (dropLit ", \"args\": ".data cs3).bind fun cs4 =>
    (parseStrArr cs4).bind fun (l, cs5) =>
    if cs5 = ['\x7d'] then some ⟨v, ⟨c⟩, some l⟩ else none

/-! ## Server loop and client -/

/-- Outcome of a blocking socket receive as the programs observe it: a payload
string, or a `zmq.ZMQError` with its message (a 5000 ms `RCVTIMEO` expiry on
the client surfaces as the `zmq.Again` subclass, message
`Resource temporarily unavailable`). -/
inductive RecvOutcome where
  | ok (payload : String)
  | zmqError (errText : String)
deriving DecidableEq, Repr

/-- One iteration of the server main loop (server.py:119-158) as a function of
the receive outcome.  `gen` counts the socket generation: it increments exactly
when `create_socket` replaces the session (both `ZMQError` branches,
server.py:140-147).  The returned envelope is what `socket.send_string` sends;
a decode failure of the payload is answered on the same session
(server.py:124-131).  The `except Exception` 500 path (server.py:148-158) is
unreachable here because the embedded handler is total. -/
def serverStep (gen : Nat) (recv : RecvOutcome) : Nat × Option ResponseEnv :=
  match recv with
  | .zmqError _ => (gen + 1, none)
  | .ok msg =>
    match decodeRequest msg with
    | some w => (gen, some (handle_request w.toEnv))
    | none => (gen, some ⟨400, "Invalid JSON"⟩)

/-- What `send_request` hands back in its second component: the parsed JSON
response, or an error-identifier string. -/
inductive ClientValue where
  | resp (r : ResponseEnv)
  | err (s : String)
deriving DecidableEq, Repr

/-- The detail text of a `json.JSONDecodeError`, modelled abstractly (the
exact text is CPython's, environment-specific; no claim depends on it). -/
def jsonErrorDetail (_payload : String) : String :=
  "Expecting value: line 1 column 1 (char 0)"

/-- `send_request` (client.py:40-72) as a function of the transport outcome of
its send/receive round trip.  `gen` is the socket generation held by the
`SocketHolder`: on any `zmq.ZMQError` (timeout included) the socket is closed
and `create_socket` installs a fresh one (client.py:63-67) and the result is
`(False, "zmq_error: " + str(e))`; on a reply that fails `json.loads` the
session is kept and the result is `(False, "json_error: " + str(e))`
(client.py:68-70); otherwise `(True, parsed reply)`. -/
def send_request (gen : Nat) (outcome : RecvOutcome) : Nat × Bool × ClientValue :=
  match outcome with
  | .zmqError e => (gen + 1, (false, .err ("zmq_error: " ++ e)))
  | .ok payload =>
    match decodeResponse payload with
    | some r => (gen, (true, .resp r))
    | none => (gen, (false, .err ("json_error: " ++ jsonErrorDetail payload)))

/-- A token that the title branch of `parse_args` can actually fill the slot
with: it does not start with `--` and is non-empty (an empty token passes the
branch's test but assigns the empty string, leaving `title` unset). -/
def nonFlagNonEmpty (a : String) : Bool :=
  !("--".data.isPrefixOf a.data) && !(a == "")

/-- Printable text: no control characters (codepoints below `0x20`).  The
quote and backslash are printable and are escaped by the codec. -/
def isPrintable (s : String) : Bool :=
  s.data.all fun c => 0x20 ≤ c.toNat

/-! ## Supporting lemmas -/

lemma bool_eq_false {b : Bool} (h : ¬(b = true)) : b = false := by
  cases b
  · rfl
  · exact absurd rfl h

lemma dashdash_of_flag {p t : List Char} (hp : ['-', '-'] <+: p)
    (h : p.isPrefixOf t = true) : (['-', '-'].isPrefixOf t) = true := by
  rw [List.isPrefixOf_iff_prefix] at h ⊢
  exact hp.trans h

lemma argStep_flag_title {s : NoticeParams} {a : String}
    (hd : ("--".data.isPrefixOf a.data) = true) :
    (argStep s a.data).title = s.title := by
  unfold argStep
  split_ifs with h1 h2 h3 h4 h5
  · rfl
  · rfl
  · split <;> rfl
  · split <;> rfl
  · exact absurd hd (by simp [h5.1])
  · rfl

lemma argStep_nonflag {s : NoticeParams} {a : String}
    (hd : ("--".data.isPrefixOf a.data) = false) :
    argStep s a.data = if s.title = "" then { s with title := a } else s := by
  have k : ∀ p : List Char, ['-', '-'] <+: p → p.isPrefixOf a.data = false := by
    intro p hp
    refine bool_eq_false fun hc => ?_
    have h := dashdash_of_flag hp hc
    rw [h] at hd
    exact absurd hd (by decide)
  have k1 := k "--context=".data (by decide)
  have k2 := k "--allow-break=".data (by decide)
  have k3 := k "--mask-duration=".data (by decide)
  have k4 := k "--overlay-duration=".data (by decide)
  simp only [argStep, k1, k2, k3, k4, hd]
  simp only [Bool.false_eq_true, if_false, not_false_iff, true_and]

lemma argStep_title (s : NoticeParams) (a : String) :
    (argStep s a.data).title =
      if s.title = "" ∧ nonFlagNonEmpty a = true then a else s.title := by
  by_cases hd : ("--".data.isPrefixOf a.data) = true
  · rw [argStep_flag_title hd]
    have hne : nonFlagNonEmpty a = false := by simp [nonFlagNonEmpty, hd]
    simp [hne]
  · have hd' := bool_eq_false hd
    rw [argStep_nonflag hd']
    by_cases ht : s.title = ""
    · rw [if_pos ht]
      by_cases ha : a = ""
      · subst ha
        have hC : ¬(s.title = "" ∧ nonFlagNonEmpty "" = true) := fun hc => by
          simpa [nonFlagNonEmpty] using hc.2
        rw [if_neg hC]
        simpa using ht.symm
      · have hC : s.title = "" ∧ nonFlagNonEmpty a = true :=
          ⟨ht, by simp [nonFlagNonEmpty, hd', ha]⟩
        rw [if_pos hC]
    · rw [if_neg ht]
      have hC : ¬(s.title = "" ∧ nonFlagNonEmpty a = true) := fun hc => ht hc.1
      rw [if_neg hC]

lemma argStep_nil (s : NoticeParams) : argStep s ("".data) = s := by
  rw [argStep_nonflag (by decide)]
  by_cases ht : s.title = ""
  · rw [if_pos ht]
    obtain ⟨t, c, b, m, o⟩ := s
    have : t = "" := ht
    subst this
    rfl
  · rw [if_neg ht]

lemma argStep_nonflag_keep (s : NoticeParams) (t : String)
    (hf : ("--".data.isPrefixOf t.data) = false) (ht : s.title ≠ "") :
    argStep s t.data = s := by
  rw [argStep_nonflag hf, if_neg ht]

lemma foldl_title (args : List String) : ∀ s : NoticeParams,
    (args.foldl (fun s a => argStep s a.data) s).title =
      if s.title = "" then ((args.find? nonFlagNonEmpty).getD "") else s.title := by
  induction args with
  | nil => intro s; by_cases h : s.title = "" <;> simp [h]
  | cons a args ih =>
    intro s
    rw [List.foldl_cons, ih, argStep_title]
    by_cases ht : s.title = ""
    · by_cases ha : nonFlagNonEmpty a = true
      · have haa : a ≠ "" := fun h => by rw [h] at ha; exact absurd ha (by decide)
        simp [ht, ha, haa, List.find?_cons_of_pos _ ha]
      · simp [ht, ha, List.find?_cons_of_neg _ ha]
    · simp [ht]

lemma argStep_mask_bad (s : NoticeParams) (v : List Char)
    (h : parsePyFloatChars v = none) :
    argStep s ("--mask-duration=".data ++ v) = s := by
  have e1 : ("--context=".data.isPrefixOf ("--mask-duration=".data ++ v)) = false := rfl
  have e2 : ("--allow-break=".data.isPrefixOf ("--mask-duration=".data ++ v)) = false := rfl
  have e3 : ("--mask-duration=".data.isPrefixOf ("--mask-duration=".data ++ v)) = true :=
    List.isPrefixOf_iff_prefix.mpr (List.prefix_append _ _)
  have e4 : (("--mask-duration=".data ++ v).drop 16) = v := rfl
  simp [argStep, e1, e2, e3, e4, h]

lemma argStep_overlay_bad (s : NoticeParams) (v : List Char)
    (h : parsePyFloatChars v = none) :
    argStep s ("--overlay-duration=".data ++ v) = s := by
  have e1 : ("--context=".data.isPrefixOf ("--overlay-duration=".data ++ v)) = false := rfl
  have e2 : ("--allow-break=".data.isPrefixOf ("--overlay-duration=".data ++ v)) = false := rfl
  have e3 : ("--mask-duration=".data.isPrefixOf ("--overlay-duration=".data ++ v)) = false := rfl
  have e4 : ("--overlay-duration=".data.isPrefixOf ("--overlay-duration=".data ++ v)) = true :=
    List.isPrefixOf_iff_prefix.mpr (List.prefix_append _ _)
  have e5 : (("--overlay-duration=".data ++ v).drop 19) = v := rfl
  simp [argStep, e1, e2, e3, e4, e5, h]


lemma escChar_printable {c : Char} (h : 0x20 ≤ c.toNat) (h1 : c ≠ '"') (h2 : c ≠ '\\') :
    escChar c = [c] := by
  have hn : c ≠ '\n' := fun hc => by subst hc; exact absurd h (by decide)
  have hr : c ≠ '\r' := fun hc => by subst hc; exact absurd h (by decide)
  have ht : c ≠ '\t' := fun hc => by subst hc; exact absurd h (by decide)
  have hb : c ≠ '\x08' := fun hc => by subst hc; exact absurd h (by decide)
  have hf : c ≠ '\x0c' := fun hc => by subst hc; exact absurd h (by decide)
  have hlt : ¬(c.toNat < 0x20) := by omega
  simp [escChar, h1, h2, hn, hr, ht, hb, hf, hlt]

lemma parseJStrBody_escape : ∀ (s : List Char), (∀ c ∈ s, 0x20 ≤ c.toNat) →
    ∀ rest : List Char,
      parseJStrBody (escapeChars s ++ '"' :: rest) = some (s, rest) := by
  intro s
  induction s with
  | nil =>
    intro _ rest
    rw [show escapeChars [] ++ '"' :: rest = '"' :: rest from rfl, parseJStrBody.eq_def]
    rfl
  | cons c s ih =>
    intro hp rest
    have hc : 0x20 ≤ c.toNat := hp c (List.mem_cons_self _ _)
    have hs : ∀ x ∈ s, 0x20 ≤ x.toNat := fun x hx => hp x (List.mem_cons_of_mem _ hx)
    by_cases h1 : c = '"'
    · subst h1
      have e : escapeChars ('"' :: s) ++ '"' :: rest =
          '\\' :: '"' :: (escapeChars s ++ '"' :: rest) := by
        simp [escapeChars, escChar]
      rw [e, parseJStrBody.eq_def]
      simp [escDecode, ih hs rest]
    · by_cases h2 : c = '\\'
      · subst h2
        have e : escapeChars ('\\' :: s) ++ '"' :: rest =
            '\\' :: '\\' :: (escapeChars s ++ '"' :: rest) := by
          simp [escapeChars, escChar]
        rw [e, parseJStrBody.eq_def]
        simp [escDecode, ih hs rest]
      · have hlt : ¬(c.toNat < 0x20) := by omega
        have e : escapeChars (c :: s) ++ '"' :: rest =
            c :: (escapeChars s ++ '"' :: rest) := by
          simp [escapeChars, escChar_printable hc h1 h2]
        rw [e, parseJStrBody.eq_def]
        simp [h1, h2, hlt, ih hs rest]

lemma parseJStr_escape (s : List Char) (hp : ∀ c ∈ s, 0x20 ≤ c.toNat)
    (rest : List Char) :
    parseJStr ('"' :: (escapeChars s ++ '"' :: rest)) = some (s, rest) := by
  show parseJStrBody (escapeChars s ++ '"' :: rest) = some (s, rest)
  exact parseJStrBody_escape s hp rest

lemma dropLit_append (l rest : List Char) : dropLit l (l ++ rest) = some rest := by
  induction l with
  | nil => rfl
  | cons c l ih => simp [dropLit, ih]

lemma natDigitsAux_spec : ∀ (f n : Nat), n < f →
    (digitsToNat (natDigitsAux f n) = n ∧
     (∀ c ∈ natDigitsAux f n, isDigitChar c = true) ∧
     natDigitsAux f n ≠ []) := by
  intro f
  induction f with
  | zero => intro n hn; omega
  | succ f ih =>
    intro n hn
    by_cases h : n < 10
    · simp only [natDigitsAux, if_pos h]
      refine ⟨?_, ?_, by simp⟩
      · interval_cases n <;> decide
      · intro c hc
        simp only [List.mem_singleton] at hc
        subst hc
        interval_cases n <;> decide
    · simp only [natDigitsAux, if_neg h]
      have hrec : n / 10 < f := by omega
      obtain ⟨ih1, ih2, ih3⟩ := ih (n / 10) hrec
      have h10 : n % 10 < 10 := Nat.mod_lt _ (by omega)
      have hdig : digitVal (Char.ofNat ('0'.toNat + n % 10)) = n % 10 ∧
          isDigitChar (Char.ofNat ('0'.toNat + n % 10)) = true := by
        set k := n % 10 with hk
        clear_value k
        interval_cases k <;> exact ⟨by decide, by decide⟩
      refine ⟨?_, ?_, by simp⟩
      · unfold digitsToNat at ih1 ⊢
        rw [List.foldl_append, List.foldl_cons, List.foldl_nil, ih1, hdig.1]
        omega
      · intro c hc
        rw [List.mem_append] at hc
        rcases hc with hc | hc
        · exact ih2 c hc
        · simp only [List.mem_singleton] at hc
          subst hc
          exact hdig.2

lemma takeDigits_append : ∀ (ds : List Char), (∀ c ∈ ds, isDigitChar c = true) →
    ∀ (rest : List Char), (∀ c, rest.head? = some c → isDigitChar c = false) →
    takeDigits (ds ++ rest) = (ds, rest) := by
  intro ds
  induction ds with
  | nil =>
    intro _ rest hr
    cases rest with
    | nil => rfl
    | cons r rs =>
      have := hr r rfl
      simp [takeDigits, this]
  | cons d ds ih =>
    intro hds rest hr
    have hd := hds d (List.mem_cons_self _ _)
    simp [takeDigits, hd, ih (fun c hc => hds c (List.mem_cons_of_mem _ hc)) rest hr]

lemma parseNat_append (n : Nat) (rest : List Char)
    (hr : ∀ c, rest.head? = some c → isDigitChar c = false) :
    parseNat (natDigits n ++ rest) = some (n, rest) := by
  obtain ⟨h1, h2, h3⟩ := natDigitsAux_spec (n + 1) n (by omega)
  unfold parseNat natDigits
  rw [takeDigits_append _ h2 rest hr]
  cases hds : natDigitsAux (n + 1) n with
  | nil => exact absurd hds h3
  | cons a as =>
    show some (digitsToNat (a :: as), rest) = some (n, rest)
    rw [← hds, h1]


lemma printable_chars {s : String} (h : isPrintable s = true) :
    ∀ c ∈ s.data, 0x20 ≤ c.toNat := by
  simpa [isPrintable, List.all_eq_true] using h

lemma string_eta (l : List Char) : (⟨l⟩ : String).data = l := rfl

lemma encodeItems_length : ∀ l : List String, l.length ≤ (encodeItems l).length := by
  intro l
  match l with
  | [] => simp [encodeItems]
  | [s] => simp [encodeItems, encodeJStr]
  | s :: s' :: ss =>
    have ih := encodeItems_length (s' :: ss)
    simp only [encodeItems, encodeJStr, List.length_cons, List.length_append] at ih ⊢
    omega

lemma parseItems_round : ∀ (l : List String) (s : String),
    isPrintable s = true → (∀ x ∈ l, isPrintable x = true) →
    ∀ (fuel : Nat), l.length ≤ fuel →
    ∀ rest : List Char,
      parseItems fuel (encodeItems (s :: l) ++ ']' :: rest) = some (s :: l, rest) := by
  intro l
  induction l with
  | nil =>
    intro s hs _ fuel _ rest
    have e : encodeItems [s] ++ ']' :: rest =
        '"' :: (escapeChars s.data ++ '"' :: (']' :: rest)) := by
      simp [encodeItems, encodeJStr]
    rw [e, parseItems.eq_def]
    simp [parseJStrBody_escape s.data (printable_chars hs) (']' :: rest)]
  | cons s' l ih =>
    intro s hs hl fuel hf rest
    have hs' : isPrintable s' = true := hl s' (List.mem_cons_self _ _)
    have hl' : ∀ x ∈ l, isPrintable x = true := fun x hx => hl x (List.mem_cons_of_mem _ hx)
    cases fuel with
    | zero => simp at hf
    | succ f =>
      have e : encodeItems (s :: s' :: l) ++ ']' :: rest =
          '"' :: (escapeChars s.data ++ '"' ::
            (',' :: ' ' :: (encodeItems (s' :: l) ++ ']' :: rest))) := by
        simp [encodeItems, encodeJStr]
      rw [e, parseItems.eq_def]
      simp [parseJStrBody_escape s.data (printable_chars hs),
        ih s' hs' hl' f (by simpa using hf) rest]

lemma parseStrArr_round (l : List String) (hp : ∀ x ∈ l, isPrintable x = true)
    (rest : List Char) :
    parseStrArr ('[' :: (encodeItems l ++ ']' :: rest)) = some (l, rest) := by
  match l with
  | [] => rfl
  | s :: l' =>
    have hs : isPrintable s = true := hp s (List.mem_cons_self _ _)
    have hl' : ∀ x ∈ l', isPrintable x = true := fun x hx => hp x (List.mem_cons_of_mem _ hx)
    have hlen : l'.length ≤ (encodeItems (s :: l') ++ ']' :: rest).length := by
      have := encodeItems_length (s :: l')
      simp only [List.length_cons, List.length_append] at this ⊢
      omega
    obtain ⟨X, hX⟩ : ∃ X, encodeItems (s :: l') ++ ']' :: rest = '"' :: X := by
      match l' with
      | [] =>
        exact ⟨escapeChars s.data ++ '"' :: ']' :: rest, by simp [encodeItems, encodeJStr]⟩
      | x :: xs =>
        exact ⟨escapeChars s.data ++ '"' :: ',' :: ' ' ::
          (encodeItems (x :: xs) ++ ']' :: rest), by simp [encodeItems, encodeJStr]⟩
    rw [hX, parseStrArr.eq_def]
    show parseItems ('"' :: X).length ('"' :: X) = some (s :: l', rest)
    rw [← hX]
    exact parseItems_round l' s hs hl' _ hlen rest


lemma mem_escapeChars {c : Char} : ∀ {s : List Char}, c ∈ s → 0x80 ≤ c.toNat →
    c ∈ escapeChars s := by
  intro s hc hb
  induction s with
  | nil => cases hc
  | cons a s ih =>
    rcases List.mem_cons.mp hc with rfl | hc'
    · have e : escChar c = [c] :=
        escChar_printable (by omega) (fun h => by subst h; exact absurd hb (by decide))
          (fun h => by subst h; exact absurd hb (by decide))
      simp [escapeChars, e]
    · simp [escapeChars, ih hc']

lemma decode_encode_response (n : Nat) (m : String) (h : isPrintable m = true) :
    decodeResponse (encodeResponse ⟨n, m⟩) = some ⟨n, m⟩ := by
  have hm := printable_chars h
  have e0 : encodeResponse ⟨n, m⟩ =
      ⟨"\x7b\"status_code\": ".data ++ (natDigits n ++ (", \"message\": ".data ++
        ('"' :: (escapeChars m.data ++ '"' :: ['\x7d']))))⟩ := by
    unfold encodeResponse encodeJStr
    congr 1
    simp [List.append_assoc]
  have hnum := parseNat_append n
    (", \"message\": ".data ++ ('"' :: (escapeChars m.data ++ '"' :: ['\x7d'])))
    (by
      intro c hc
      rw [show (", \"message\": ".data ++
        ('"' :: (escapeChars m.data ++ '"' :: ['\x7d']))).head? = some ',' from rfl] at hc
      injection hc with hcc
      rw [← hcc]
      decide)
  have hstr := parseJStr_escape m.data hm ['\x7d']
  rw [e0]
  unfold decodeResponse
  rw [string_eta]
  simp only [dropLit_append, hnum, hstr, Option.some_bind]
  rfl


lemma decode_request_generic (v : Nat) (c : String)
    (Y : List Char) :
    decodeRequest ⟨"\x7b\"version\": ".data ++
      (natDigits v ++ (", \"command\": ".data ++ ('"' :: (escapeChars c.data ++ '"' :: Y))))⟩ =
    ((parseJStr ('"' :: (escapeChars c.data ++ '"' :: Y))).bind fun (cc, cs3) =>
      if cs3 = ['\x7d'] then some ⟨v, ⟨cc⟩, none⟩
      else
        (dropLit ", \"args\": ".data cs3).bind fun cs4 =>
        (parseStrArr cs4).bind fun (l, cs5) =>
        if cs5 = ['\x7d'] then some ⟨v, ⟨cc⟩, some l⟩ else none) := by
  have hnum := parseNat_append v
    (", \"command\": ".data ++ ('"' :: (escapeChars c.data ++ '"' :: Y)))
    (by
      intro x hx
      rw [show (", \"command\": ".data ++
        ('"' :: (escapeChars c.data ++ '"' :: Y))).head? = some ',' from rfl] at hx
      injection hx with hxx
      rw [← hxx]
      decide)
  unfold decodeRequest
  rw [string_eta]
  simp only [dropLit_append, hnum, Option.some_bind]

lemma decode_encode_request (v : Nat) (c : String) (args : Option (List String))
    (hc : isPrintable c = true)
    (hargs : ∀ l, args = some l → ∀ x ∈ l, isPrintable x = true) :
    decodeRequest (encodeRequest ⟨v, c, args⟩) = some ⟨v, c, args⟩ := by
  have hcm := printable_chars hc
  cases args with
  | none =>
    have e0 : encodeRequest ⟨v, c, none⟩ =
        ⟨"\x7b\"version\": ".data ++ (natDigits v ++ (", \"command\": ".data ++
          ('"' :: (escapeChars c.data ++ '"' :: ['\x7d']))))⟩ := by
      unfold encodeRequest encodeJStr
      congr 1
      simp [List.append_assoc]
    rw [e0, decode_request_generic v c ['\x7d'],
      parseJStr_escape c.data hcm ['\x7d']]
    rfl
  | some l =>
    have hl : ∀ x ∈ l, isPrintable x = true := hargs l rfl
    have esplit : (", \"args\": [" : String).data = ", \"args\": ".data ++ ['['] := rfl
    have e0 : encodeRequest ⟨v, c, some l⟩ =
        ⟨"\x7b\"version\": ".data ++ (natDigits v ++ (", \"command\": ".data ++
          ('"' :: (escapeChars c.data ++ '"' ::
            (", \"args\": ".data ++ ('[' :: (encodeItems l ++ ']' :: ['\x7d'])))))))⟩ := by
      unfold encodeRequest encodeJStr
      congr 1
      rw [esplit]
      simp [List.append_assoc]
    have hne : ((", \"args\": ".data ++
        ('[' :: (encodeItems l ++ ']' :: ['\x7d']))) = ['\x7d']) = False := by
      refine eq_false fun hEq => ?_
      have h2 := congrArg List.head? hEq
      rw [show (", \"args\": ".data ++
        ('[' :: (encodeItems l ++ ']' :: ['\x7d']))).head? = some ',' from rfl] at h2
      exact absurd h2 (by decide)
    rw [e0, decode_request_generic v c
        (", \"args\": ".data ++ ('[' :: (encodeItems l ++ ']' :: ['\x7d']))),
      parseJStr_escape c.data hcm
        (", \"args\": ".data ++ ('[' :: (encodeItems l ++ ']' :: ['\x7d'])))]
    simp only [Option.some_bind, hne, if_false, dropLit_append, parseStrArr_round l hl ['\x7d']]
    rfl

/-! ## Claim theorems -/

/-- C1: the claim says every envelope with `version ≠ 0` (and a `command` key)
is answered with a 4xx status and never 200.  The code does not satisfy it:
`handle_request` never inspects the `version` field, so
`\x7b"version": 1, "command": "ping"\x7d` is answered `\x7b200, "OK"\x7d` —
status 200 and not 4xx.  (The repository's own client test 11 expects this
request to fail.) -/
theorem version_field_ignored :
    handle_request ⟨some 1, some "ping", none⟩ = ⟨200, "OK"⟩ ∧
    ¬ (400 ≤ (handle_request ⟨some 1, some "ping", none⟩).status_code ∧
       (handle_request ⟨some 1, some "ping", none⟩).status_code < 500) := by
  decide

/-- C2: the claim says `time` and `get_lesson` requests (version 0) are
answered with status 200.  The code does not satisfy it: neither command is in
`handle_request`'s dispatch table, so both fall to the final branch and are
answered `\x7b404, "Command not found"\x7d`.  (The repository's own client
tests 12 and 13 expect these requests to succeed.) -/
theorem time_get_lesson_unhandled :
    handle_request ⟨some 0, some "time", none⟩ = ⟨404, "Command not found"⟩ ∧
    handle_request ⟨some 0, some "get_lesson", none⟩ = ⟨404, "Command not found"⟩ ∧
    (handle_request ⟨some 0, some "time", none⟩).status_code ≠ 200 := by
  decide

/-- C3: the claim says that when the 5000 ms receive deadline expires,
`send_request` tears down the socket, rebuilds the session and returns
`(false, "timeout")`.  The code rebuilds the session (generation 7 → 8) but
returns `(False, "zmq_error: " + str(e))` — for the `RCVTIMEO` expiry
`(False, "zmq_error: Resource temporarily unavailable")`, never the string
`"timeout"` its own docstring promises. -/
theorem timeout_yields_zmq_error_string :
    send_request 7 (.zmqError "Resource temporarily unavailable") =
      (8, (false, .err "zmq_error: Resource temporarily unavailable")) ∧
    "zmq_error: Resource temporarily unavailable" ≠ "timeout" := by
  decide

/-- C4: for every `notice` request (version 0): empty resolved title gives
`\x7b400, "Missing required parameter 'title'"\x7d`; a non-empty title gives
status 200 when `allow_break` resolved true and 202 otherwise, with message
`"Notice sent successfully"`. -/
theorem notice_dispatch_contract (args : List String) :
    ((parse_args args).title = "" →
      handle_request ⟨some 0, some "notice", some args⟩ =
        ⟨400, "Missing required parameter 'title'"⟩) ∧
    ((parse_args args).title ≠ "" →
      handle_request ⟨some 0, some "notice", some args⟩ =
        ⟨if (parse_args args).allow_break then 200 else 202,
          "Notice sent successfully"⟩) := by
  constructor <;> intro h <;> simp [handle_request, h]

/-- Witness for C4 at the concrete inputs `[]` (no title) and
`["Hi", "--allow-break=false"]` (title `"Hi"`, `allow_break` false). -/
theorem notice_dispatch_contract_witness :
    handle_request ⟨some 0, some "notice", some []⟩ =
      ⟨400, "Missing required parameter 'title'"⟩ ∧
    handle_request ⟨some 0, some "notice", some ["Hi", "--allow-break=false"]⟩ =
      ⟨202, "Notice sent successfully"⟩ := by
  refine ⟨(notice_dispatch_contract []).1 (by decide), ?_⟩
  rw [(notice_dispatch_contract ["Hi", "--allow-break=false"]).2 (by decide)]
  decide

/-- C5: a payload that fails JSON decoding is answered with the 400-class
envelope `\x7b400, "Invalid JSON"\x7d` over the same session — the socket
generation is unchanged (no `create_socket`), and a response is produced for
the send half of the receive/send alternation. -/
theorem decode_failure_keeps_session (gen : Nat) (s : String)
    (h : decodeRequest s = none) :
    serverStep gen (.ok s) = (gen, some ⟨400, "Invalid JSON"⟩) := by
  simp [serverStep, h]

/-- Witness for C5 at the non-JSON payload `"oops"` on session generation 0. -/
theorem decode_failure_keeps_session_witness :
    serverStep 0 (.ok "oops") = (0, some ⟨400, "Invalid JSON"⟩) :=
  decode_failure_keeps_session 0 "oops" (by decide)

/-- C6: for version-0 envelopes, a missing `command` key is answered
`\x7b400, "Missing or invalid 'command' parameter"\x7d`, `"ping"` is answered
`\x7b200, "OK"\x7d`, and every command string outside the dispatch table
(neither `"ping"` nor `"notice"`) is answered
`\x7b404, "Command not found"\x7d`. -/
theorem dispatch_basic_commands (a : Option (List String)) :
    handle_request ⟨some 0, none, a⟩ =
      ⟨400, "Missing or invalid 'command' parameter"⟩ ∧
    handle_request ⟨some 0, some "ping", a⟩ = ⟨200, "OK"⟩ ∧
    ∀ s : String, s ≠ "ping" → s ≠ "notice" →
      handle_request ⟨some 0, some s, a⟩ = ⟨404, "Command not found"⟩ := by
  refine ⟨rfl, rfl, fun s h1 h2 => ?_⟩
  simp [handle_request, h1, h2]

/-- Witness for C6 at the unknown command `"bogus"` with no `args` field. -/
theorem dispatch_basic_commands_witness :
    handle_request ⟨some 0, some "bogus", none⟩ = ⟨404, "Command not found"⟩ :=
  (dispatch_basic_commands none).2.2 "bogus" (by decide) (by decide)

/-- C7: `parse_args` is total by construction (it is a Lean function; the
Python original catches the only exception, `float`'s `ValueError`,
internally).  A `--mask-duration=`/`--overlay-duration=` token whose value is
not parsable as a Python float is silently ignored — removing it changes
nothing — and in particular the default durations 3.0 and 5.0 are retained. -/
theorem parse_args_bad_float_ignored (l1 l2 : List String) (v : String)
    (h : parsePyFloat v = none) :
    parse_args (l1 ++ ("--mask-duration=" ++ v) :: l2) = parse_args (l1 ++ l2) ∧
    parse_args (l1 ++ ("--overlay-duration=" ++ v) :: l2) = parse_args (l1 ++ l2) ∧
    (parse_args ["--mask-duration=" ++ v]).mask_duration = .finite 3 ∧
    (parse_args ["--overlay-duration=" ++ v]).overlay_duration = .finite 5 := by
  have hv : parsePyFloatChars v.data = none := h
  refine ⟨?_, ?_, ?_, ?_⟩
  · unfold parse_args
    rw [List.foldl_append, List.foldl_append, List.foldl_cons,
      show ("--mask-duration=" ++ v).data = "--mask-duration=".data ++ v.data from rfl,
      argStep_mask_bad _ _ hv]
  · unfold parse_args
    rw [List.foldl_append, List.foldl_append, List.foldl_cons,
      show ("--overlay-duration=" ++ v).data = "--overlay-duration=".data ++ v.data
        from rfl,
      argStep_overlay_bad _ _ hv]
  · unfold parse_args
    rw [List.foldl_cons, List.foldl_nil,
      show ("--mask-duration=" ++ v).data = "--mask-duration=".data ++ v.data from rfl,
      argStep_mask_bad _ _ hv]
    rfl
  · unfold parse_args
    rw [List.foldl_cons, List.foldl_nil,
      show ("--overlay-duration=" ++ v).data = "--overlay-duration=".data ++ v.data
        from rfl,
      argStep_overlay_bad _ _ hv]
    rfl

/-- Witness for C7 at the unparsable value `"abc"` (as in the spec's
`--mask-duration=abc` example) inside the token list `["T", flag]`. -/
theorem parse_args_bad_float_ignored_witness :
    parse_args (["T"] ++ ("--mask-duration=" ++ "abc") :: []) = parse_args (["T"] ++ []) ∧
    parse_args (["T"] ++ ("--overlay-duration=" ++ "abc") :: []) = parse_args (["T"] ++ []) ∧
    (parse_args ["--mask-duration=" ++ "abc"]).mask_duration = .finite 3 ∧
    (parse_args ["--overlay-duration=" ++ "abc"]).overlay_duration = .finite 5 :=
  parse_args_bad_float_ignored ["T"] [] "abc" (by decide)

/-- C8 (amended): `title` is resolved from the first non-empty non-flag token
(an empty-string token never claims the slot — see the counterexample), and
once `title` is non-empty every further non-flag token is ignored: it changes
no field of the result. -/
theorem parse_args_title_policy :
    (∀ args : List String,
      (parse_args args).title = ((args.find? nonFlagNonEmpty).getD "")) ∧
    (∀ (l1 l2 : List String) (t : String),
      ("--".data.isPrefixOf t.data) = false → (parse_args l1).title ≠ "" →
      parse_args (l1 ++ t :: l2) = parse_args (l1 ++ l2)) := by
  constructor
  · intro args
    have h := foldl_title args defaultParams
    simpa [parse_args, defaultParams] using h
  · intro l1 l2 t hf ht
    unfold parse_args at ht ⊢
    rw [List.foldl_append, List.foldl_append, List.foldl_cons,
      argStep_nonflag_keep _ _ hf ht]

/-- Witness for C8 (amended) at `["T"]`: the first non-flag token becomes the
title, and the later non-flag token `"Y"` changes nothing. -/
theorem parse_args_title_policy_witness :
    (parse_args ["T"]).title = "T" ∧
    parse_args (["T"] ++ "Y" :: []) = parse_args (["T"] ++ []) := by
  constructor
  · rw [parse_args_title_policy.1 ["T"]]
    decide
  · exact parse_args_title_policy.2 ["T"] [] "Y" (by decide) (by decide)

/-- Counterexample to C8 as stated: in `["", "X"]` the first token not
starting with `--` is `""`, yet the resolved title is `"X"` — the first
non-flag token did not win and the subsequent non-flag token was not
ignored. -/
theorem first_nonflag_token_empty_counterexample :
    ("--".data.isPrefixOf "".data) = false ∧
    (parse_args ["", "X"]).title = "X" ∧ ("X" : String) ≠ "" :=
  ⟨by decide, by decide, by decide⟩

/-- C10: an empty-string token is a complete no-op for `parse_args` (it does
not start with `--`, but assigning it leaves `title` empty), so
`parse_args ["", "X"]` resolves title `"X"`: the winning token is the first
non-empty non-flag one, not literally the first non-flag one. -/
theorem empty_token_never_wins :
    (∀ l1 l2 : List String, parse_args (l1 ++ "" :: l2) = parse_args (l1 ++ l2)) ∧
    (parse_args ["", "X"]).title = "X" ∧
    (∀ args : List String,
      (parse_args args).title = ((args.find? nonFlagNonEmpty).getD "")) := by
  refine ⟨?_, by decide, ?_⟩
  · intro l1 l2
    unfold parse_args
    rw [List.foldl_append, List.foldl_append, List.foldl_cons, argStep_nil]
  · intro args
    have h := foldl_title args defaultParams
    simpa [parse_args, defaultParams] using h


/-- C9: the JSON envelope codec is lossless for printable-text fields:
decoding the encoding of a response or request envelope whose string fields
are printable UTF-8 text yields the envelope back, and non-ASCII content is
not escaped — every character of the message at or above `U+0080` appears
literally in the encoded output. -/
theorem codec_roundtrip_printable (r : ResponseEnv) (w : WireRequest)
    (hr : isPrintable r.message = true) (hw : isPrintable w.command = true)
    (hargs : ∀ l, w.args = some l → ∀ x ∈ l, isPrintable x = true) :
    decodeResponse (encodeResponse r) = some r ∧
    decodeRequest (encodeRequest w) = some w ∧
    (∀ c ∈ r.message.data, 0x80 ≤ c.toNat → c ∈ (encodeResponse r).data) := by
  obtain ⟨n, m⟩ := r
  obtain ⟨v, cmd, args⟩ := w
  refine ⟨decode_encode_response n m hr, decode_encode_request v cmd args hw hargs, ?_⟩
  intro c hc hb
  show c ∈ (encodeResponse ⟨n, m⟩).data
  unfold encodeResponse encodeJStr
  rw [string_eta]
  have hmem := mem_escapeChars hc hb
  simp only [List.mem_append, List.mem_cons]
  tauto

/-- Witness for C9 at envelopes carrying CJK text: the response
`\x7b200, "时间 OK"\x7d` and the request
`\x7b0, "notice", ["测试提醒", "--context=内容"]\x7d` round trip, and the
non-ASCII character `时` appears literally in the encoded response. -/
theorem codec_roundtrip_printable_witness :
    decodeResponse (encodeResponse ⟨200, "时间 OK"⟩) = some ⟨200, "时间 OK"⟩ ∧
    decodeRequest (encodeRequest ⟨0, "notice", some ["测试提醒", "--context=内容"]⟩) =
      some ⟨0, "notice", some ["测试提醒", "--context=内容"]⟩ ∧
    '时' ∈ (encodeResponse ⟨200, "时间 OK"⟩).data := by
  have h := codec_roundtrip_printable ⟨200, "时间 OK"⟩
    ⟨0, "notice", some ["测试提醒", "--context=内容"]⟩
    (by decide) (by decide)
    (by
      intro l hl
      injection hl with hinj
      subst hinj
      decide)
  exact ⟨h.1, h.2.1, h.2.2 '时' (by decide) (by decide)⟩

end IslandMQ
